import Mathlib

/-!
Verification development for the RIT catalog engine of nr-catalog-tools
(src/nrcatalogtools/rit.py).

Python strings are embedded as `List Char`; Python floats are embedded as
exact fractions (`PyFloat`, an integer numerator over a natural
denominator, compared by cross-multiplication exactly as Python `==` and
`<` compare numbers).  The parsed values and arithmetic appearing in the
claims — small integers, halving and doubling — are exact in IEEE double,
so this exact model agrees with the float semantics on every comparison
made here.  Fallible Python code (KeyError, AttributeError, TypeError,
AssertionError, RuntimeError, ValueError) is embedded in `Except PyErr`.
External collaborators (the filesystem glob, the remote existence check and
fetch) are passed in as explicit oracle functions.
-/

set_option maxHeartbeats 2000000

/-- Shorthand: the character list of a string literal. -/
def lc (s : String) : List Char := s.toList

/-- Numeric value of an ASCII digit character (Python `int` on one digit). -/
def dval (c : Char) : Nat := c.toNat - 48

/-- ASCII digit character for a value below ten. -/
def digitChar : Nat → Char
  | 0 => '0' | 1 => '1' | 2 => '2' | 3 => '3' | 4 => '4'
  | 5 => '5' | 6 => '6' | 7 => '7' | 8 => '8' | 9 => '9'
  | _ => '?'

/-- Value of a digit string read left to right (base ten). -/
def digitsVal (l : List Char) : Nat :=
  l.foldl (fun a c => 10 * a + dval c) 0

/-- Python `int(s)` on a non-negative decimal literal: succeeds exactly on a
nonempty all-digit string (the only shapes produced by the filename
grammars); any other input makes Python raise, which is `none` here. -/
def parseNat? (l : List Char) : Option Nat :=
  if !l.isEmpty && l.all Char.isDigit then some (digitsVal l) else none

/-- Decimal digits of `n`, most significant first, by fuel recursion so the
kernel can evaluate it (the fuel `n + 1` always suffices). -/
def natDigitsAux : Nat → Nat → List Char
  | 0, _ => []
  | fuel + 1, n =>
    if n < 10 then [digitChar n]
    else natDigitsAux fuel (n / 10) ++ [digitChar (n % 10)]

/-- Decimal representation of `n` (Python `str(n)` / `format(n)` for a
non-negative integer). -/
def natDigits (n : Nat) : List Char := natDigitsAux (n + 1) n

/-- Python format spec `04d` applied to `n`: left-pad the decimal digits
with zeros to width four. -/
def pad4 (n : Nat) : List Char :=
  List.replicate (4 - (natDigits n).length) '0' ++ natDigits n

/-- Python `s.split(sep)` for a single-character separator `sep`:
`splitOnChar sep []` is `[[]]`, and separators delimit (possibly empty)
fields. -/
def splitOnChar (sep : Char) : List Char → List (List Char)
  | [] => [[]]
  | c :: rest =>
    if c = sep then [] :: splitOnChar sep rest
    else
      match splitOnChar sep rest with
      | [] => [[c]]
      | h :: t => (c :: h) :: t

/-- Python slice `s[-k:]`: the last `k` characters (the whole string when it
is shorter than `k`). -/
def takeRightL (l : List Char) (k : Nat) : List Char :=
  l.drop (l.length - k)

/-- `RITCatalogHelper.sim_info_from_metadata_filename` (rit.py lines
281-299).  Splits the file name on dashes; the simulation number is the
integer in the last four characters of the first field, the resolution the
integer after the first character of the second field.  The id value is
parsed inside a try/except from the third field truncated at the first
underscore and stripped of its two leading characters; any failure there
yields the sentinel -1.  A failure of the two int() calls outside the
try/except (or a missing dash field, an IndexError in Python) aborts the
caller, which is `none` here. -/
def sim_info_from_metadata_filename (file_name : List Char) :
    Option (Nat × Nat × Int) :=
  let parts := splitOnChar '-' file_name
  match parseNat? (takeRightL (parts.getD 0 []) 4),
        parseNat? ((parts.getD 1 []).drop 1) with
  | some sim_number, some res_number =>
    let id_val : Int :=
      match parseNat? (((splitOnChar '_' (parts.getD 2 [])).headD []).drop 2) with
      | some v => (v : Int)
      | none => -1
    some (sim_number, res_number, id_val)
  | _, _ => none

/-- Modelled from the spec: `utils.rit_catalog_info["metadata_file_fmts"][0]`
is not under src/.  Per spec section 6 and the docstrings in rit.py, the
quasicircular metadata filename template instantiated at index, resolution
and id value. -/
def metadata_filename_qc (idx res id_val : Nat) : List Char :=
  lc "RIT:BBH:" ++ pad4 idx ++ '-' :: 'n' :: natDigits res
    ++ '-' :: 'i' :: 'd' :: natDigits id_val ++ lc "_Metadata.txt"

/-- Modelled from the spec: `utils.rit_catalog_info["metadata_file_fmts"][1]`
is not under src/.  Per spec section 6 and the docstrings in rit.py, the
eccentric metadata filename template instantiated at index and
resolution. -/
def metadata_filename_ecc (idx res : Nat) : List Char :=
  lc "RIT:eBBH:" ++ pad4 idx ++ '-' :: 'n' :: natDigits res
    ++ lc "-ecc_Metadata.txt"

/-- Truncation of a filename at its metadata suffix marker:
`RITCatalogHelper.simname_from_metadata_filename` (rit.py line 311) is
`filename.split("_Meta")[0]`, the text before the first occurrence of the
marker (the whole string when the marker is absent). -/
def takeBeforeSub (sep : List Char) : List Char → List Char
  | [] => []
  | c :: rest =>
    if sep.isPrefixOf (c :: rest) then [] else c :: takeBeforeSub sep rest

/-- `RITCatalogHelper.simname_from_metadata_filename` (rit.py line 311). -/
def simname_from_metadata_filename (filename : List Char) : List Char :=
  takeBeforeSub (lc "_Meta") filename

/-- Python exceptions that the embedded code can raise. -/
inductive PyErr where
  | keyError
  | attributeError
  | typeError
  | assertionError
  | runtimeError
  | valueErrorPy
  deriving DecidableEq

deriving instance DecidableEq for Except

/-- A Python float, embedded exactly as the fraction `n / d` (`d` is kept
positive by every constructor below).  Numeric comparison is by
cross-multiplication, matching Python float comparison on all the exact
values that occur in the claims. -/
structure PyFloat where
  n : Int
  d : Nat
  deriving DecidableEq

/-- The float 0.0. -/
def fzero : PyFloat := ⟨0, 1⟩

/-- The float of a non-negative integer. -/
def fnat (k : Nat) : PyFloat := ⟨k, 1⟩

/-- Python `a == b` on floats (numeric equality). -/
def feq (a b : PyFloat) : Bool := a.n * b.d == b.n * a.d

/-- Python `a / 2.0`. -/
def fdiv2 (a : PyFloat) : PyFloat := ⟨a.n, a.d * 2⟩

/-- Python `a * 2.0`. -/
def fmul2 (a : PyFloat) : PyFloat := ⟨a.n * 2, a.d⟩

/-- A value stored in the parsed-metadata dictionary: a float or a
string. -/
inductive Value where
  | num : PyFloat → Value
  | str : List Char → Value
  deriving DecidableEq

/-- The parsed-metadata dictionary: insertion-ordered keys, one value per
key (Python dict). -/
abbrev Record := List (List Char × Value)

/-- Python `k in opts`. -/
def rmem (r : Record) (k : List Char) : Bool :=
  r.any (fun p => p.1 == k)

/-- Python `opts.get(k)`. -/
def rget? (r : Record) (k : List Char) : Option Value :=
  (r.find? (fun p => p.1 == k)).map (fun p => p.2)

/-- Python `opts[k] = v`: replace in place when the key exists, else append
(insertion order preserved). -/
def rset (r : Record) (k : List Char) (v : Value) : Record :=
  if rmem r k then r.map (fun p => if p.1 == k then (k, v) else p)
  else r ++ [(k, v)]

/-- Python `opts[k]`: raises KeyError when the key is absent. -/
def getKey (r : Record) (k : List Char) : Except PyErr Value :=
  match rget? r k with
  | some v => .ok v
  | none => .error .keyError

/-- Python `s.strip()`: drop leading and trailing whitespace. -/
def trim (l : List Char) : List Char :=
  ((l.dropWhile Char.isWhitespace).reverse.dropWhile Char.isWhitespace).reverse

/-- Python `sep.join(parts)` for a single-character separator. -/
def joinChar (sep : Char) : List (List Char) → List Char
  | [] => []
  | [x] => x
  | x :: y :: xs => x ++ sep :: joinChar sep (y :: xs)

/-- Python `c.lower()` on ASCII text. -/
def lowerList (l : List Char) : List Char := l.map Char.toLower

/-- Python `float(s)` restricted to the fragment exercised by the source's
metadata values: an optional sign, then digits with an optional decimal
point (at least one digit overall).  Exotic float syntax (exponents,
inf/nan, underscores) is outside every claim and rejected here; letters and
empty strings fail exactly as in Python. -/
def parseUFloat? (l : List Char) : Option PyFloat :=
  match splitOnChar '.' l with
  | [ip] =>
    if !ip.isEmpty && ip.all Char.isDigit then some (fnat (digitsVal ip)) else none
  | [ip, fp] =>
    if !(ip.isEmpty && fp.isEmpty) && ip.all Char.isDigit && fp.all Char.isDigit then
      some ⟨digitsVal ip * 10 ^ fp.length + digitsVal fp, 10 ^ fp.length⟩
    else none
  | _ => none

/-- Python `float(s)` (see `parseUFloat?`). -/
def parseFloat? (l : List Char) : Option PyFloat :=
  match l with
  | '-' :: rest => (parseUFloat? rest).map (fun q => ⟨-q.n, q.d⟩)
  | '+' :: rest => parseUFloat? rest
  | _ => parseUFloat? l

/-- The eight derived fields of `RITCatalogHelper.parse_metadata_txt`
(rit.py lines 432-441). -/
def derivedFields : List (List Char) :=
  [lc "freq-start-22", lc "freq-start-22-Hz-1Msun", lc "number-of-cycles-22",
   lc "number-of-orbits", lc "peak-omega-22", lc "peak-ampl-22", lc "Msun",
   lc "eccentricity"]

/-- Python `len(s) > 0 and s[0].isalpha()`: the line filter of
`parse_metadata_txt` (rit.py line 442). -/
def lineOk : List Char → Bool
  | [] => false
  | c :: _ => c.isAlpha

/-- The key a line contributes: `kv[0].strip()` for `kv = s.split("=")`. -/
def lineKey (s : List Char) : List Char :=
  trim ((splitOnChar '=' s).headD [])

/-- One iteration of the key/value loop of `parse_metadata_txt` (rit.py
lines 444-458): split on `=`, try `float` on the rejoined trimmed value; on
failure default a derived field not yet set to 0.0, otherwise store the
trimmed string. -/
def processLine (opts : Record) (s : List Char) : Record :=
  let kv := splitOnChar '=' s
  let key := trim (kv.headD [])
  let vstr := trim (joinChar '=' kv.tail)
  match parseFloat? vstr with
  | some q => rset opts key (.num q)
  | none =>
    match derivedFields.find? (fun xy => key == xy && !(rmem opts xy)) with
    | some xy => rset opts xy (.num fzero)
    | none => rset opts key (.str vstr)

/-- One `xy` step of the spin-component completion of `parse_metadata_txt`
(rit.py lines 462-490): when `xy` is unset, reading `opts["system-type"]`
raises KeyError if absent and AttributeError if numeric (`.lower()` on a
float); when it is the string aligned/nonspinning case-insensitively, set
`xy` to 0.0. -/
def completeOne (xy : List Char) (opts : Record) : Except PyErr Record :=
  if rmem opts xy then .ok opts
  else
    match rget? opts (lc "system-type") with
    | none => .error .keyError
    | some (.num _) => .error .attributeError
    | some (.str s) =>
      if lowerList s = lc "aligned" ∨ lowerList s = lc "nonspinning" then
        .ok (rset opts xy (.num fzero))
      else .ok opts

/-- One spin-completion block of `parse_metadata_txt` (rit.py lines
462-490): when the z component is present, run `completeOne` for the x and
then the y component. -/
def completePair (z x y : List Char) (opts : Record) : Except PyErr Record :=
  if rmem opts z then
    match completeOne x opts with
    | .error e => .error e
    | .ok o => completeOne y o
  else .ok opts

/-- The four spin-completion blocks of `parse_metadata_txt` (rit.py lines
462-490), in source order. -/
def spinComplete (opts : Record) : Except PyErr Record := do
  let o1 ← completePair (lc "relaxed-chi1z") (lc "relaxed-chi1x") (lc "relaxed-chi1y") opts
  let o2 ← completePair (lc "relaxed-chi2z") (lc "relaxed-chi2x") (lc "relaxed-chi2y") o1
  let o3 ← completePair (lc "initial-bh-chi1z") (lc "initial-bh-chi1x") (lc "initial-bh-chi1y") o2
  completePair (lc "initial-bh-chi2z") (lc "initial-bh-chi2x") (lc "initial-bh-chi2y") o3

/-- Python `v / 2.0` on a dictionary value: TypeError on a string. -/
def vDiv2 : Value → Except PyErr Value
  | .num q => .ok (.num (fdiv2 q))
  | .str _ => .error .typeError

/-- Python `v * 2.0` on a dictionary value: TypeError on a string. -/
def vMul2 : Value → Except PyErr Value
  | .num q => .ok (.num (fmul2 q))
  | .str _ => .error .typeError

/-- Python `v == 0.0`: false (no error) on a string. -/
def vIsZero : Value → Bool
  | .num q => feq q fzero
  | .str _ => false

/-- The cycles-to-orbits block of `parse_metadata_txt` (rit.py lines
494-498): when number-of-cycles-22 is set, first fill an absent
number-of-orbits with half of it, then overwrite a zero number-of-orbits
with half of it. -/
def cyclesToOrbits (opts : Record) : Except PyErr Record := do
  if rmem opts (lc "number-of-cycles-22") then
    let o ←
      if rmem opts (lc "number-of-orbits") then pure opts
      else do
        let v ← getKey opts (lc "number-of-cycles-22")
        let v2 ← vDiv2 v
        pure (rset opts (lc "number-of-orbits") v2)
    let vo ← getKey o (lc "number-of-orbits")
    if vIsZero vo then do
      let vc ← getKey o (lc "number-of-cycles-22")
      let v2 ← vDiv2 vc
      pure (rset o (lc "number-of-orbits") v2)
    else pure o
  else pure opts

/-- The orbits-to-cycles block of `parse_metadata_txt` (rit.py lines
500-504), symmetric to `cyclesToOrbits` with doubling. -/
def orbitsToCycles (opts : Record) : Except PyErr Record := do
  if rmem opts (lc "number-of-orbits") then
    let o ←
      if rmem opts (lc "number-of-cycles-22") then pure opts
      else do
        let v ← getKey opts (lc "number-of-orbits")
        let v2 ← vMul2 v
        pure (rset opts (lc "number-of-cycles-22") v2)
    let vc ← getKey o (lc "number-of-cycles-22")
    if vIsZero vc then do
      let vo ← getKey o (lc "number-of-orbits")
      let v2 ← vMul2 vo
      pure (rset o (lc "number-of-cycles-22") v2)
    else pure o
  else pure opts

/-- The final defaulting loop of `parse_metadata_txt` (rit.py lines
506-508): give every still-missing derived field the value 0.0. -/
def ensureDefaults (opts : Record) : Record :=
  derivedFields.foldl (fun r xy => if rmem r xy then r else rset r xy (.num fzero)) opts

/-- `RITCatalogHelper.parse_metadata_txt` (rit.py lines 422-510): filter to
lines starting with a letter, fold the key/value loop, run the four
spin-completion blocks, the two orbit/cycle blocks, and the final
defaulting loop; return the filtered lines and the dictionary.  Exceptions
escaping any block abort the parse. -/
def parse_metadata_txt (raw : List (List Char)) :
    Except PyErr (List (List Char) × Record) := do
  let nxt := raw.filter lineOk
  let opts := nxt.foldl processLine []
  let o1 ← spinComplete opts
  let o2 ← cyclesToOrbits o1
  let o3 ← orbitsToCycles o2
  pure (nxt, ensureDefaults o3)

/-- True when the record binds `k` to a float numerically equal to `q`
(Python `opts[k] == q` for a float `q`). -/
def getNumEq (r : Record) (k : List Char) (q : PyFloat) : Bool :=
  match rget? r k with
  | some (.num v) => feq v q
  | _ => false

/-- Python substring prefix test used in `containsSub`. -/
def startsWith : List Char → List Char → Bool
  | [], _ => true
  | _ :: _, [] => false
  | c :: cs, d :: ds => c == d && startsWith cs ds

/-- Python `pat in s`: substring containment. -/
def containsSub (pat : List Char) : List Char → Bool
  | [] => startsWith pat []
  | c :: rest => startsWith pat (c :: rest) || containsSub pat rest

/-- `RITCatalogHelper.simtags` (rit.py lines 416-420): the two family tag
patterns for an index, obtained from the metadata filename templates
truncated at their first dash and instantiated at the index (quasicircular
first, eccentric second). -/
def simtags (idx : Nat) : List (List Char) :=
  [lc "RIT:BBH:" ++ pad4 idx, lc "RIT:eBBH:" ++ pad4 idx]

/-- The glob pattern `str(metadata_dir / sim_tag) + "*"` built by the
cache-lookup loops. -/
def tagPattern (dir sim_tag : List Char) : List Char :=
  dir ++ '/' :: sim_tag ++ ['*']

/-- The glob pattern of the quasicircular tag of `idx` (the first entry of
`simtags idx`). -/
def patQC (dir : List Char) (idx : Nat) : List Char :=
  tagPattern dir (lc "RIT:BBH:" ++ pad4 idx)

/-- The glob pattern of the eccentric tag of `idx` (the second entry of
`simtags idx`). -/
def patEcc (dir : List Char) (idx : Nat) : List Char :=
  tagPattern dir (lc "RIT:eBBH:" ++ pad4 idx)

/-- `RITCatalogHelper.metadata_filename_from_cache` (rit.py lines 329-340).
The filesystem is abstracted as the oracle `glob` mapping a glob pattern to
its matches.  The loop has no early exit: an empty match list keeps the
previous value, a nonempty one overwrites it with its first element, and
the scan continues over the remaining tags. -/
def metadata_filename_from_cache (glob : List Char → List (List Char))
    (metadata_dir : List Char) (idx : Nat) : List Char :=
  (simtags idx).foldl
    (fun file_name sim_tag =>
      match glob (tagPattern metadata_dir sim_tag) with
      | [] => file_name
      | f :: _ => f)
    []

/-- Python `os.path.basename`: the text after the last slash. -/
def basename (p : List Char) : List Char :=
  (splitOnChar '/' p).getLastD []

/-- Helper for `simname_from_cache`: the loop over the tag patterns, which
returns out of the loop at the first tag with a nonempty match list. -/
def simname_from_cacheAux (glob : List Char → List (List Char))
    (metadata_dir : List Char) : List (List Char) → List Char
  | [] => []
  | sim_tag :: rest =>
    match glob (tagPattern metadata_dir sim_tag) with
    | [] => simname_from_cacheAux glob metadata_dir rest
    | f :: _ => simname_from_metadata_filename (basename f)

/-- `RITCatalogHelper.simname_from_cache` (rit.py lines 396-408): unlike
`metadata_filename_from_cache`, this loop returns at the first tag with a
match; the empty string is returned when no tag matches. -/
def simname_from_cache (glob : List Char → List (List Char))
    (metadata_dir : List Char) (idx : Nat) : List Char :=
  simname_from_cacheAux glob metadata_dir (simtags idx)

/-- Python `k < f` comparing an integer length against a float (used by the
completeness gate): with a positive denominator this is
`k * f.d < f.n`. -/
def natLtF (k : Nat) (f : PyFloat) : Bool := (k : Int) * f.d < f.n

/-- Python `f * m` for a float `f` and integer `m`. -/
def fmulNat (f : PyFloat) (m : Nat) : PyFloat := ⟨f.n * m, f.d⟩

/-- The ValueError message raised by `RITCatalog.load` (rit.py lines
98-102). -/
def loadErrMsg (metadata_dir : List Char) : List Char :=
  lc "Catalog not found in " ++ metadata_dir ++ lc ". Please set `download=True`"

/-- `RITCatalog.load` (rit.py lines 32-111), with its collaborators
abstracted: the catalog tables are an arbitrary type `α` with a record
count `len`; `disk` is the result of `read_metadata_df_from_disk`,
`refreshed` the result of `refresh_metadata_df_on_disk` (called with the
same argument in both branches that call it), and `crawled` the result of
`download_metadata_for_catalog`.  `download` is the tri-state flag of the
Python signature (`None`, `False` or `True`); Python truthiness admits only
`some true`.  The final conversion of the returned table into the catalog
dictionary is identity-like and omitted. -/
def load {α : Type} (len : α → Nat) (download : Option Bool)
    (num_sims_to_crawl : Nat) (acceptable_scraping_fraction : PyFloat)
    (metadata_dir : List Char) (disk refreshed crawled : α) :
    Except (List Char) α :=
  let catalog_df :=
    if len disk = 0 then refreshed
    else if natLtF (len disk) (fmulNat acceptable_scraping_fraction num_sims_to_crawl) then
      refreshed
    else disk
  if natLtF (len catalog_df) (fmulNat acceptable_scraping_fraction num_sims_to_crawl) then
    if download = some true then .ok crawled
    else .error (loadErrMsg metadata_dir)
  else .ok catalog_df

/-- A catalog row, abstracted to its `simulation_name` — the only row field
the crawl orchestration logic of rit.py reads (tier 2 scans it and the
index assertion decodes it). -/
abbrev Row := List Char

/-- The inner id-value loop of tier 3 (rit.py lines 730-748): probe
`fetch` at each id value in order, stopping at the first hit; the returned
list logs every probe made (every `download_metadata` call, hence every
remote access). -/
def probeIds (fetch : Nat → Option Row) : List Nat → List Nat × Option (Nat × Row)
  | [] => ([], none)
  | i :: rest =>
    match fetch i with
    | some r => ([i], some (i, r))
    | none =>
      let (log, out) := probeIds fetch rest
      (i :: log, out)

/-- The outer resolution loop of tier 3 (rit.py lines 729-751) over an
already-reversed resolution list: at each resolution probe all id values;
stop at the first resolution yielding any hit. -/
def tier3Aux (fetch : Nat → Nat → Option Row) (maxId : Nat) :
    List Nat → List (Nat × Nat) × Option (Nat × Nat × Row)
  | [] => ([], none)
  | res :: rest =>
    match probeIds (fetch res) (List.range maxId) with
    | (log, some (i, r)) => (log.map (fun j => (res, j)), some (res, i, r))
    | (log, none) =>
      let (l2, out) := tier3Aux fetch maxId rest
      (log.map (fun j => (res, j)) ++ l2, out)

/-- Tier 3 of `RITCatalogHelper.download_metadata_for_catalog` (rit.py
lines 728-751): `for res in possible_res[::-1]: for id_val in
range(max_id_in_name): ...`, with `download_metadata` abstracted as the
oracle `fetch` (empty DataFrame is `none`).  Returns the probe log and the
accepted `(res, id_val, row)` hit, if any. -/
def tier3 (fetch : Nat → Nat → Option Row) (possible_res : List Nat)
    (maxId : Nat) : List (Nat × Nat) × Option (Nat × Nat × Row) :=
  tier3Aux fetch maxId possible_res.reverse

/-- One row of the tier-2 scan (rit.py lines 701-725): if any family tag is
a substring of the row's simulation name, decode the name (an undecodable
name aborts, like the int() calls it wraps), assert the decoded index
equals the one searched for (AssertionError otherwise), and remember this
row; the scan continues over later rows, so a later match overwrites an
earlier one. -/
def tier2Row (idx : Nat) (tags : List (List Char)) (acc : Option Row)
    (name : Row) : Except PyErr (Option Row) :=
  match tags.find? (fun t => containsSub t name) with
  | none => .ok acc
  | some _ =>
    match sim_info_from_metadata_filename name with
    | none => .error .valueErrorPy
    | some (f_idx, _, _) =>
      if f_idx = idx then .ok (some name) else .error .assertionError

/-- Tier 2 of `download_metadata_for_catalog` (rit.py lines 701-725): scan
the in-memory table for a row whose simulation name contains one of the
index's family tags. -/
def tier2 (idx : Nat) (sims : List Row) : Except PyErr (Option Row) :=
  sims.foldlM (tier2Row idx (simtags idx)) none

/-- One index of the crawl loop of `download_metadata_for_catalog` (rit.py
lines 683-760): tier 1 (disk cache, abstracted as the oracle `diskMeta`
standing for `metadata_from_cache`), then tier 2 (the in-memory table),
then tier 3 (remote probing); a resolved row is appended to the table, an
unresolved index contributes nothing.  The log accumulates every remote
probe. -/
def crawlStep (diskMeta : Nat → Option Row) (fetch : Nat → Nat → Nat → Option Row)
    (possible_res : List Nat) (maxId : Nat)
    (acc : List Row × List (Nat × Nat × Nat)) (idx : Nat) :
    Except PyErr (List Row × List (Nat × Nat × Nat)) :=
  let (sims, log) := acc
  match diskMeta idx with
  | some row => .ok (sims ++ [row], log)
  | none =>
    match tier2 idx sims with
    | .error e => .error e
    | .ok (some row) => .ok (sims ++ [row], log)
    | .ok none =>
      let (plog, hit) := tier3 (fetch idx) possible_res maxId
      let log2 := log ++ plog.map (fun p => (idx, p.1, p.2))
      match hit with
      | some (_, _, row) => .ok (sims ++ [row], log2)
      | none => .ok (sims, log2)

/-- The crawl loop over the identifier space. -/
def crawlLoop (diskMeta : Nat → Option Row) (fetch : Nat → Nat → Nat → Option Row)
    (possible_res : List Nat) (maxId : Nat) (idxs : List Nat)
    (init : List Row) : Except PyErr (List Row × List (Nat × Nat × Nat)) :=
  idxs.foldlM (crawlStep diskMeta fetch possible_res maxId) (init, [])

/-- `RITCatalogHelper.download_metadata_for_catalog` (rit.py lines
651-763) with `use_cache=True`: `snapshot` is the persisted metadata.csv
when it exists and is non-empty.  When the snapshot holds at least
`num_sims_to_crawl - 1` rows the function returns its first
`num_sims_to_crawl - 1` rows at once (rit.py lines 675-677); otherwise the
crawl loop runs over indices 1..num_sims_to_crawl starting from the
snapshot (or from the empty table when there is none).  The second
component of the result logs every remote probe that was made. -/
def download_metadata_for_catalog (diskMeta : Nat → Option Row)
    (fetch : Nat → Nat → Nat → Option Row) (possible_res : List Nat)
    (maxId : Nat) (num_sims_to_crawl : Nat) (snapshot : Option (List Row)) :
    Except PyErr (List Row × List (Nat × Nat × Nat)) :=
  match snapshot with
  | some table =>
    if table.length ≥ num_sims_to_crawl - 1 then
      .ok (table.take (num_sims_to_crawl - 1), [])
    else
      crawlLoop diskMeta fetch possible_res maxId
        (List.range' 1 num_sims_to_crawl) table
  | none =>
    crawlLoop diskMeta fetch possible_res maxId
      (List.range' 1 num_sims_to_crawl) []

/-- The location fields of one simulation's metadata record, as read by the
three path accessors of `RITCatalog`. -/
structure SimLocations where
  metadata_location : List Char
  waveform_data_location : List Char
  psi4_data_location : List Char

/-- `RITCatalog.metadata_filepath_from_simname` (rit.py lines 175-182):
the filesystem is the oracle `pathExists`; a missing file raises
RuntimeError. -/
def metadata_filepath_from_simname (pathExists : List Char → Bool)
    (m : SimLocations) : Except PyErr (List Char) :=
  if pathExists m.metadata_location then .ok m.metadata_location
  else .error .runtimeError

/-- `RITCatalog.waveform_filepath_from_simname` (rit.py lines 194-202): a
missing file only prints a warning; the computed path is returned
regardless. -/
def waveform_filepath_from_simname (_pathExists : List Char → Bool)
    (m : SimLocations) : List Char :=
  m.waveform_data_location

/-- `RITCatalog.psi4_filepath_from_simname` (rit.py lines 217-226): a
missing file yields the empty string. -/
def psi4_filepath_from_simname (pathExists : List Char → Bool)
    (m : SimLocations) : List Char :=
  if pathExists m.psi4_data_location then m.psi4_data_location else []

/-- The keys whose presence can steer `parse_metadata_txt` into one of its
raising code paths: the four spin z components (whose completion reads
`opts["system-type"]`) and the two orbit/cycle fields (whose
cross-derivation divides or multiplies the stored value). -/
def sensitiveKeys : List (List Char) :=
  [lc "relaxed-chi1z", lc "relaxed-chi2z", lc "initial-bh-chi1z",
   lc "initial-bh-chi2z", lc "number-of-cycles-22", lc "number-of-orbits"]

theorem dval_digitChar : ∀ n, n < 10 → dval (digitChar n) = n := by decide

theorem isDigit_digitChar : ∀ n, n < 10 → (digitChar n).isDigit = true := by decide

theorem digitsVal_append_singleton (l : List Char) (c : Char) :
    digitsVal (l ++ [c]) = 10 * digitsVal l + dval c := by
  simp [digitsVal, List.foldl_append]

theorem natDigitsAux_spec : ∀ fuel n, n < fuel →
    (natDigitsAux fuel n).all Char.isDigit = true ∧
    natDigitsAux fuel n ≠ [] ∧
    digitsVal (natDigitsAux fuel n) = n := by
  intro fuel
  induction fuel with
  | zero => intro n h; omega
  | succ m ih =>
    intro n h
    by_cases h10 : n < 10
    · refine ⟨?_, ?_, ?_⟩
      · simp [natDigitsAux, h10, isDigit_digitChar n h10]
      · simp [natDigitsAux, h10]
      · simp [natDigitsAux, h10, digitsVal, dval_digitChar n h10]
    · have hdn : n / 10 < n := Nat.div_lt_self (by omega) (by omega)
      have hdm : n / 10 < m := by omega
      obtain ⟨ha, hne, hv⟩ := ih (n / 10) hdm
      have hm10 : n % 10 < 10 := by omega
      refine ⟨?_, ?_, ?_⟩
      · simp [natDigitsAux, h10, List.all_append, ha, isDigit_digitChar _ hm10]
      · simp [natDigitsAux, h10]
      · rw [natDigitsAux]
        simp only [h10, if_false]
        rw [digitsVal_append_singleton, hv, dval_digitChar _ hm10]
        omega

theorem natDigits_spec (n : Nat) :
    (natDigits n).all Char.isDigit = true ∧
    natDigits n ≠ [] ∧
    digitsVal (natDigits n) = n :=
  natDigitsAux_spec (n + 1) n (by omega)

theorem isEmpty_eq_false_of_ne {l : List Char} (h : l ≠ []) : l.isEmpty = false := by
  cases l with
  | nil => exact absurd rfl h
  | cons c t => rfl

theorem parseNat?_natDigits (n : Nat) : parseNat? (natDigits n) = some n := by
  obtain ⟨h1, h2, h3⟩ := natDigits_spec n
  simp [parseNat?, h1, h3, isEmpty_eq_false_of_ne h2]

theorem natDigitsAux_length : ∀ fuel n k, n < fuel → n < 10 ^ k → 1 ≤ k →
    (natDigitsAux fuel n).length ≤ k := by
  intro fuel
  induction fuel with
  | zero => intro n k h; omega
  | succ m ih =>
    intro n k h hk h1
    by_cases h10 : n < 10
    · simp [natDigitsAux, h10]; omega
    · have hk2 : 2 ≤ k := by
        by_contra hc
        have hk1 : k = 1 := by omega
        subst hk1
        simp [pow_one] at hk
        omega
      have hdn : n / 10 < n := Nat.div_lt_self (by omega) (by omega)
      have hdiv : n / 10 < 10 ^ (k - 1) := by
        rw [Nat.div_lt_iff_lt_mul (by norm_num)]
        calc n < 10 ^ k := hk
          _ = 10 ^ (k - 1) * 10 := by
              rw [← pow_succ]
              congr 1
              omega
      have := ih (n / 10) (k - 1) (by omega) hdiv (by omega)
      simp [natDigitsAux, h10, List.length_append]
      omega

theorem pad4_length (n : Nat) (h : n ≤ 9999) : (pad4 n).length = 4 := by
  have hlen := natDigitsAux_length (n + 1) n 4 (by omega) (by norm_num; omega) (by norm_num)
  simp [pad4, natDigits] at *
  omega

theorem pad4_all_digit (n : Nat) : (pad4 n).all Char.isDigit = true := by
  rw [pad4, List.all_append, Bool.and_eq_true]
  refine ⟨?_, (natDigits_spec n).1⟩
  rw [List.all_eq_true]
  intro c hc
  rw [List.eq_of_mem_replicate hc]
  decide

theorem digitsVal_replicate_zero (j : Nat) (l : List Char) :
    digitsVal (List.replicate j '0' ++ l) = digitsVal l := by
  induction j with
  | zero => simp
  | succ m ih =>
    rw [List.replicate_succ, List.cons_append]
    show List.foldl (fun a c => 10 * a + dval c) (10 * 0 + dval '0') _ = _
    have : 10 * 0 + dval '0' = 0 := by decide
    rw [this]
    exact ih

theorem digitsVal_pad4 (n : Nat) : digitsVal (pad4 n) = n := by
  rw [pad4, digitsVal_replicate_zero]
  exact (natDigits_spec n).2.2

theorem pad4_ne_nil (n : Nat) : pad4 n ≠ [] := by
  rw [pad4]
  intro h
  exact (natDigits_spec n).2.1 (List.append_eq_nil.1 h).2

theorem parseNat?_pad4 (n : Nat) : parseNat? (pad4 n) = some n := by
  simp [parseNat?, pad4_all_digit n, digitsVal_pad4 n, isEmpty_eq_false_of_ne (pad4_ne_nil n)]

theorem not_mem_of_all_digit {l : List Char} {c : Char}
    (hall : l.all Char.isDigit = true) (hc : c.isDigit = false) : c ∉ l := by
  intro hm
  rw [List.all_eq_true] at hall
  have := hall c hm
  rw [hc] at this
  cases this

theorem splitOnChar_of_not_mem {sep : Char} :
    ∀ {l : List Char}, sep ∉ l → splitOnChar sep l = [l] := by
  intro l
  induction l with
  | nil => intro _; rfl
  | cons c rest ih =>
    intro h
    have hc : ¬ c = sep := fun he => h (he ▸ List.mem_cons_self c rest)
    have hr : sep ∉ rest := fun hm => h (List.mem_cons_of_mem c hm)
    simp [splitOnChar, hc, ih hr]

theorem splitOnChar_append {sep : Char} :
    ∀ {l1 : List Char} (l2 : List Char), sep ∉ l1 →
    splitOnChar sep (l1 ++ sep :: l2) = l1 :: splitOnChar sep l2 := by
  intro l1
  induction l1 with
  | nil => intro l2 _; simp [splitOnChar]
  | cons c cs ih =>
    intro l2 h
    have hc : ¬ c = sep := fun he => h (he ▸ List.mem_cons_self c cs)
    have hr : sep ∉ cs := fun hm => h (List.mem_cons_of_mem c hm)
    simp [splitOnChar, hc, ih l2 hr]

theorem takeRightL_append (l1 l2 : List Char) (k : Nat) (h : l2.length = k) :
    takeRightL (l1 ++ l2) k = l2 := by
  have h2 : l1.length + l2.length - k = l1.length := by omega
  rw [takeRightL, List.length_append, h2, List.drop_left]

/-- C1: codec round-trip.  For every valid SimulationIdentifier (index with
at most four digits, positive resolution, single-digit id value),
decoding the encoded quasicircular metadata filename returns the same
(index, resolution, id value) triple; decoding the eccentric-family
filename, whose id-value segment is absent, returns the same index and
resolution with the sentinel id value -1 instead of aborting the
caller. -/
theorem C1_roundtrip (idx res id_val : Nat)
    (h1 : 1 ≤ idx) (h2 : idx ≤ 9999) (h3 : 1 ≤ res) (h4 : id_val ≤ 9) :
    sim_info_from_metadata_filename (metadata_filename_qc idx res id_val)
      = some (idx, res, (id_val : Int)) ∧
    sim_info_from_metadata_filename (metadata_filename_ecc idx res)
      = some (idx, res, -1) := by
  have hAq : '-' ∉ lc "RIT:BBH:" ++ pad4 idx := by
    intro hm
    rcases List.mem_append.1 hm with hm | hm
    · revert hm; decide
    · exact not_mem_of_all_digit (pad4_all_digit idx) (by decide) hm
  have hAe : '-' ∉ lc "RIT:eBBH:" ++ pad4 idx := by
    intro hm
    rcases List.mem_append.1 hm with hm | hm
    · revert hm; decide
    · exact not_mem_of_all_digit (pad4_all_digit idx) (by decide) hm
  have hB : '-' ∉ 'n' :: natDigits res := by
    intro hm
    rcases List.mem_cons.1 hm with h | h
    · cases h
    · exact not_mem_of_all_digit (natDigits_spec res).1 (by decide) h
  have hC : '-' ∉ 'i' :: 'd' :: (natDigits id_val ++ lc "_Metadata.txt") := by
    intro hm
    rcases List.mem_cons.1 hm with h | hm
    · cases h
    rcases List.mem_cons.1 hm with h | hm
    · cases h
    rcases List.mem_append.1 hm with h | h
    · exact not_mem_of_all_digit (natDigits_spec id_val).1 (by decide) h
    · revert h; decide
  have hCid : '_' ∉ 'i' :: 'd' :: natDigits id_val := by
    intro hm
    rcases List.mem_cons.1 hm with h | hm
    · cases h
    rcases List.mem_cons.1 hm with h | h
    · cases h
    · exact not_mem_of_all_digit (natDigits_spec id_val).1 (by decide) h
  have hCecc : '-' ∉ lc "ecc_Metadata.txt" := by decide
  have eq1 : metadata_filename_qc idx res id_val
      = (lc "RIT:BBH:" ++ pad4 idx)
        ++ '-' :: (('n' :: natDigits res)
        ++ '-' :: ('i' :: 'd' :: (natDigits id_val ++ lc "_Metadata.txt"))) := by
    simp [metadata_filename_qc]
  have eq2 : metadata_filename_ecc idx res
      = (lc "RIT:eBBH:" ++ pad4 idx)
        ++ '-' :: (('n' :: natDigits res)
        ++ '-' :: lc "ecc_Metadata.txt") := by
    simp [metadata_filename_ecc]
    decide
  have hsq : splitOnChar '-' (metadata_filename_qc idx res id_val)
      = [lc "RIT:BBH:" ++ pad4 idx, 'n' :: natDigits res,
         'i' :: 'd' :: (natDigits id_val ++ lc "_Metadata.txt")] := by
    rw [eq1, splitOnChar_append _ hAq, splitOnChar_append _ hB,
        splitOnChar_of_not_mem hC]
  have hse : splitOnChar '-' (metadata_filename_ecc idx res)
      = [lc "RIT:eBBH:" ++ pad4 idx, 'n' :: natDigits res, lc "ecc_Metadata.txt"] := by
    rw [eq2, splitOnChar_append _ hAe, splitOnChar_append _ hB,
        splitOnChar_of_not_mem hCecc]
  have hid : splitOnChar '_' ('i' :: 'd' :: (natDigits id_val ++ lc "_Metadata.txt"))
      = ('i' :: 'd' :: natDigits id_val) :: splitOnChar '_' (lc "Metadata.txt") := by
    have : 'i' :: 'd' :: (natDigits id_val ++ lc "_Metadata.txt")
        = ('i' :: 'd' :: natDigits id_val) ++ '_' :: lc "Metadata.txt" := by
      simp
      decide
    rw [this, splitOnChar_append _ hCid]
  constructor
  · rw [sim_info_from_metadata_filename, hsq]
    simp only [List.getD_cons_zero, List.getD_cons_succ]
    rw [takeRightL_append _ _ 4 (pad4_length idx h2), parseNat?_pad4]
    simp only [List.drop_succ_cons, List.drop_zero, parseNat?_natDigits]
    rw [hid]
    simp only [List.headD_cons, List.drop_succ_cons, List.drop_zero, parseNat?_natDigits]
  · rw [sim_info_from_metadata_filename, hse]
    simp only [List.getD_cons_zero, List.getD_cons_succ]
    rw [takeRightL_append _ _ 4 (pad4_length idx h2), parseNat?_pad4]
    simp only [List.drop_succ_cons, List.drop_zero, parseNat?_natDigits]
    have : parseNat? (((splitOnChar '_' (lc "ecc_Metadata.txt")).headD []).drop 2)
        = none := by decide
    rw [this]

/-- Witness for C1 at index 193, resolution 100, id value 3. -/
theorem C1_roundtrip_witness :
    sim_info_from_metadata_filename (metadata_filename_qc 193 100 3)
      = some (193, 100, 3) ∧
    sim_info_from_metadata_filename (metadata_filename_ecc 193 100)
      = some (193, 100, -1) :=
  C1_roundtrip 193 100 3 (by decide) (by decide) (by decide) (by decide)

theorem rmem_rset (r : Record) (k k2 : List Char) (v : Value)
    (h : rmem (rset r k v) k2 = true) : rmem r k2 = true ∨ k2 = k := by
  rw [rset] at h
  by_cases hm : rmem r k
  · rw [if_pos hm, rmem, List.any_map, List.any_eq_true] at h
    obtain ⟨q, hq, hqk⟩ := h
    simp only [Function.comp] at hqk
    by_cases hqk2 : q.1 == k
    · rw [if_pos hqk2] at hqk
      right
      exact (eq_of_beq hqk).symm
    · rw [if_neg hqk2] at hqk
      left
      rw [rmem, List.any_eq_true]
      exact ⟨q, hq, hqk⟩
  · rw [if_neg hm, rmem, List.any_append] at h
    rcases Bool.or_eq_true_iff.1 h with h | h
    · exact Or.inl h
    · simp only [List.any_cons, List.any_nil, Bool.or_false] at h
      exact Or.inr (eq_of_beq h).symm

theorem rmem_rset_self (r : Record) (k : List Char) (v : Value) :
    rmem (rset r k v) k = true := by
  rw [rset]
  by_cases hm : rmem r k
  · rw [if_pos hm, rmem, List.any_map, List.any_eq_true]
    rw [rmem, List.any_eq_true] at hm
    obtain ⟨q, hq, hqk⟩ := hm
    exact ⟨q, hq, by simp [Function.comp, hqk]⟩
  · rw [if_neg hm, rmem, List.any_append]
    simp

theorem rmem_rset_mono (r : Record) (k k2 : List Char) (v : Value)
    (h : rmem r k2 = true) : rmem (rset r k v) k2 = true := by
  rw [rset]
  by_cases hm : rmem r k
  · rw [if_pos hm, rmem, List.any_map, List.any_eq_true]
    rw [rmem, List.any_eq_true] at h
    obtain ⟨q, hq, hqk⟩ := h
    refine ⟨q, hq, ?_⟩
    simp only [Function.comp]
    by_cases hqk2 : q.1 == k
    · rw [if_pos hqk2]
      have h1 : q.1 = k := eq_of_beq hqk2
      have h2 : q.1 = k2 := eq_of_beq hqk
      simp [← h1, h2]
    · rw [if_neg hqk2]
      exact hqk
  · rw [if_neg hm, rmem, List.any_append]
    rw [rmem] at h
    simp [h]

theorem rmem_processLine (opts : Record) (s : List Char) (k : List Char)
    (h : rmem (processLine opts s) k = true) :
    rmem opts k = true ∨ k = lineKey s := by
  rw [processLine] at h
  rw [lineKey]
  cases hp : parseFloat? (trim (joinChar '=' (splitOnChar '=' s).tail)) with
  | some q =>
    rw [hp] at h
    exact rmem_rset _ _ _ _ h
  | none =>
    rw [hp] at h
    cases hf : derivedFields.find?
        (fun xy => trim ((splitOnChar '=' s).headD []) == xy && !(rmem opts xy)) with
    | some xy =>
      rw [hf] at h
      rcases rmem_rset _ _ _ _ h with h2 | h2
      · exact Or.inl h2
      · have := List.find?_some hf
        rw [Bool.and_eq_true] at this
        exact Or.inr (h2.trans (eq_of_beq this.1).symm)
    | none =>
      rw [hf] at h
      exact rmem_rset _ _ _ _ h

theorem rmem_foldl_processLine :
    ∀ (l : List (List Char)) (opts : Record) (k : List Char),
    rmem (l.foldl processLine opts) k = true →
    rmem opts k = true ∨ ∃ s ∈ l, k = lineKey s := by
  intro l
  induction l with
  | nil => intro opts k h; exact Or.inl h
  | cons s rest ih =>
    intro opts k h
    rcases ih (processLine opts s) k h with h2 | ⟨t, ht, hk⟩
    · rcases rmem_processLine _ _ _ h2 with h3 | h3
      · exact Or.inl h3
      · exact Or.inr ⟨s, List.mem_cons_self s rest, h3⟩
    · exact Or.inr ⟨t, List.mem_cons_of_mem _ ht, hk⟩

theorem completePair_not_mem (z x y : List Char) (opts : Record)
    (h : rmem opts z = false) : completePair z x y opts = .ok opts := by
  simp [completePair, h]

theorem cyclesToOrbits_not_mem (opts : Record)
    (h : rmem opts (lc "number-of-cycles-22") = false) :
    cyclesToOrbits opts = .ok opts := by
  simp [cyclesToOrbits, h]
  rfl

theorem orbitsToCycles_not_mem (opts : Record)
    (h : rmem opts (lc "number-of-orbits") = false) :
    orbitsToCycles opts = .ok opts := by
  simp [orbitsToCycles, h]
  rfl

theorem rmem_nil (k : List Char) : rmem [] k = false := rfl

/-- C2 (amended): the parser returns normally on every input line sequence
in which no line's key (the trimmed text before the first equals sign) is
one of the four spin z-component keys or the two orbit/cycle keys, and
unparseable values for non-derived keys are stored as trimmed strings.  The
claim's unconditional totality is false: see the counterexample, where a
relaxed-chi1z key without a system-type key raises KeyError. -/
theorem C2_parser_totality :
    (∀ raw : List (List Char),
      (∀ s ∈ raw.filter lineOk, lineKey s ∉ sensitiveKeys) →
      (parse_metadata_txt raw).isOk = true) ∧
    ((parse_metadata_txt [lc "strange-key = not a number"]).toOption.bind
      (fun o => rget? o.2 (lc "strange-key")) = some (.str (lc "not a number"))) := by
  constructor
  · intro raw hsens
    set opts := (raw.filter lineOk).foldl processLine [] with hopts
    have hkeys : ∀ k ∈ sensitiveKeys, rmem opts k = false := by
      intro k hk
      cases hb : rmem opts k
      · rfl
      · exfalso
        rcases rmem_foldl_processLine _ _ _ (hopts ▸ hb) with h | ⟨s, hs, hks⟩
        · rw [rmem_nil] at h
          cases h
        · exact (hsens s hs) (hks ▸ hk)
    have h1 := completePair_not_mem (lc "relaxed-chi1z") (lc "relaxed-chi1x")
      (lc "relaxed-chi1y") opts (hkeys _ (by decide))
    have h2 := completePair_not_mem (lc "relaxed-chi2z") (lc "relaxed-chi2x")
      (lc "relaxed-chi2y") opts (hkeys _ (by decide))
    have h3 := completePair_not_mem (lc "initial-bh-chi1z") (lc "initial-bh-chi1x")
      (lc "initial-bh-chi1y") opts (hkeys _ (by decide))
    have h4 := completePair_not_mem (lc "initial-bh-chi2z") (lc "initial-bh-chi2x")
      (lc "initial-bh-chi2y") opts (hkeys _ (by decide))
    have hspin : spinComplete opts = .ok opts := by
      rw [spinComplete]
      simp only [h1, bind, Except.bind, h2, h3, h4]
    have hcyc := cyclesToOrbits_not_mem opts (hkeys _ (by decide))
    have horb := orbitsToCycles_not_mem opts (hkeys _ (by decide))
    rw [parse_metadata_txt]
    simp only [← hopts, hspin, bind, Except.bind, hcyc, horb]
    rfl
  · decide

theorem rmem_ensureDefaults_aux :
    ∀ (L : List (List Char)) (r : Record) (k : List Char),
    k ∈ L ∨ rmem r k = true →
    rmem (L.foldl (fun r xy => if rmem r xy then r else rset r xy (.num fzero)) r) k
      = true := by
  intro L
  induction L with
  | nil =>
    rintro r k (h | h)
    · cases h
    · exact h
  | cons x rest ih =>
    rintro r k (h | h)
    · rcases List.mem_cons.1 h with h | h
      · subst h
        refine ih _ _ (Or.inr ?_)
        by_cases hm : rmem r k
        · simpa [hm]
        · simp [hm, rmem_rset_self]
      · exact ih _ _ (Or.inl h)
    · refine ih _ _ (Or.inr ?_)
      by_cases hm : rmem r x
      · simpa [hm]
      · simp only [hm, if_false]
        exact rmem_rset_mono _ _ _ _ h

theorem rmem_ensureDefaults (r : Record) (f : List Char) (hf : f ∈ derivedFields) :
    rmem (ensureDefaults r) f = true :=
  rmem_ensureDefaults_aux derivedFields r f (Or.inl hf)

theorem rget?_isSome_of_rmem (r : Record) (k : List Char)
    (h : rmem r k = true) : (rget? r k).isSome = true := by
  rw [rmem, List.any_eq_true] at h
  obtain ⟨p, hp, hpk⟩ := h
  cases hfind : List.find? (fun p => p.1 == k) r with
  | none =>
    rw [List.find?_eq_none] at hfind
    exact absurd hpk (by simpa using hfind p hp)
  | some q => simp [rget?, hfind]

/-- C7 (amended): every record that `parse_metadata_txt` returns contains
all eight derived fields, and on empty input all eight are bound to the
numeric value 0.0.  The claim's stronger statement — that the bound value
is always numeric — is false: see the counterexample, where a derived key
occurring twice (parseable then unparseable) is bound to the trimmed
string. -/
theorem C7_derived_totality :
    (∀ (raw : List (List Char)) (out : List (List Char) × Record),
        parse_metadata_txt raw = .ok out →
        ∀ f ∈ derivedFields, (rget? out.2 f).isSome = true) ∧
    ((parse_metadata_txt []).toOption.map (fun o => o.2)
        = some (derivedFields.map (fun f => (f, Value.num fzero)))) := by
  constructor
  · intro raw out h f hf
    rw [parse_metadata_txt] at h
    cases h1 : spinComplete ((raw.filter lineOk).foldl processLine []) with
    | error e =>
      simp only [h1, bind, Except.bind] at h
      exact Except.noConfusion h
    | ok o1 =>
      simp only [h1, bind, Except.bind] at h
      cases h2 : cyclesToOrbits o1 with
      | error e =>
        simp only [h2, bind, Except.bind] at h
        exact Except.noConfusion h
      | ok o2 =>
        simp only [h2, bind, Except.bind] at h
        cases h3 : orbitsToCycles o2 with
        | error e =>
          simp only [h3, bind, Except.bind] at h
          exact Except.noConfusion h
        | ok o3 =>
          simp only [h3, bind, Except.bind, pure, Except.pure, Except.ok.injEq] at h
          have hout : out.2 = ensureDefaults o3 := by
            rw [← h]
          rw [hout]
          exact rget?_isSome_of_rmem _ _ (rmem_ensureDefaults o3 f hf)
  · decide


/-- C2 counterexample: on the single line relaxed-chi1z = 0.2 (a spin
z-component with no system-type key), `parse_metadata_txt` raises KeyError
instead of returning normally, refuting the claim that the parser never
raises in exactly the situation the claim singles out. -/
theorem C2_counterexample :
    parse_metadata_txt [lc "relaxed-chi1z = 0.2"] = .error .keyError := by decide

/-- Witness for C2 on a two-line input with no sensitive keys. -/
theorem C2_parser_totality_witness :
    (parse_metadata_txt [lc "mass1 = 0.5", lc "spin-magnitude = high"]).isOk = true :=
  C2_parser_totality.1 [lc "mass1 = 0.5", lc "spin-magnitude = high"] (by decide)

/-- C7 counterexample: with eccentricity given twice, first as 0.1 and then
as the unparseable text high, the returned record binds the derived field
eccentricity to the string high, not to a numeric value. -/
theorem C7_counterexample :
    (parse_metadata_txt [lc "eccentricity = 0.1", lc "eccentricity = high"]).toOption.bind
      (fun o => rget? o.2 (lc "eccentricity")) = some (.str (lc "high")) := by decide

/-- Witness for C7 at the empty input and the derived field Msun. -/
theorem C7_derived_totality_witness :
    (rget? (derivedFields.map (fun f => (f, Value.num fzero))) (lc "Msun")).isSome = true :=
  C7_derived_totality.1 [] ([], derivedFields.map (fun f => (f, Value.num fzero)))
    (by decide) (lc "Msun") (by decide)

/-- C3 (amended): when both the on-disk snapshot and the refresh-from-cache
result fall short of acceptable_scraping_fraction * num_sims_to_crawl,
`load` without the download opt-in (None or False) raises a ValueError
whose message names the cache location and asks for download=True — but
does not report the observed or expected record counts (see the
counterexample) — and with download=True it falls back to the full remote
crawl. -/
theorem C3_completeness_gate {α : Type} (len : α → Nat) (num : Nat) (frac : PyFloat)
    (dir : List Char) (disk refreshed crawled : α)
    (h1 : natLtF (len disk) (fmulNat frac num) = true)
    (h2 : natLtF (len refreshed) (fmulNat frac num) = true) :
    load len none num frac dir disk refreshed crawled = .error (loadErrMsg dir) ∧
    load len (some false) num frac dir disk refreshed crawled = .error (loadErrMsg dir) ∧
    load len (some true) num frac dir disk refreshed crawled = .ok crawled := by
  have hdf : (if len disk = 0 then refreshed
      else if natLtF (len disk) (fmulNat frac num) then refreshed else disk) = refreshed := by
    by_cases h0 : len disk = 0
    · simp [h0]
    · simp [h0, h1]
  refine ⟨?_, ?_, ?_⟩ <;> simp [load, hdf, h2]

/-- C3 counterexample: at the claim's example configuration (60 records,
num_sims_to_crawl 100, fraction 0.7), the raised error message contains the
cache location but neither the observed count 60 nor the expected count 70,
refuting the claim that the error names the observed vs. expected record
counts. -/
theorem C3_counterexample :
    load (fun n : Nat => n) none 100 ⟨7, 10⟩ (lc "RITCache") 60 60 0
      = .error (loadErrMsg (lc "RITCache")) ∧
    containsSub (lc "60") (loadErrMsg (lc "RITCache")) = false ∧
    containsSub (lc "70") (loadErrMsg (lc "RITCache")) = false ∧
    containsSub (lc "RITCache") (loadErrMsg (lc "RITCache")) = true := by decide

theorem C3_completeness_gate_witness :
    load (fun n : Nat => n) none 100 ⟨7, 10⟩ (lc "D") 60 60 42 = .error (loadErrMsg (lc "D")) ∧
    load (fun n : Nat => n) (some false) 100 ⟨7, 10⟩ (lc "D") 60 60 42
      = .error (loadErrMsg (lc "D")) ∧
    load (fun n : Nat => n) (some true) 100 ⟨7, 10⟩ (lc "D") 60 60 42 = .ok 42 :=
  C3_completeness_gate (fun n : Nat => n) 100 ⟨7, 10⟩ (lc "D") 60 60 42 (by decide) (by decide)

theorem probeIds_first (f : Nat → Option Row) :
    ∀ (l1 : List Nat) (i : Nat) (l2 : List Nat) (r : Row),
    (∀ j ∈ l1, f j = none) → f i = some r →
    probeIds f (l1 ++ i :: l2) = (l1 ++ [i], some (i, r)) := by
  intro l1
  induction l1 with
  | nil =>
    intro i l2 r _ hi
    simp [probeIds, hi]
  | cons c cs ih =>
    intro i l2 r hnone hi
    have hc : f c = none := hnone c (List.mem_cons_self c cs)
    have hr : ∀ j ∈ cs, f j = none := fun j hj => hnone j (List.mem_cons_of_mem _ hj)
    simp [probeIds, hc, ih i l2 r hr hi]

/-- C4: tier-3 remote search with configured resolutions [100, 200].  When
resolution 200 has a remote hit at its least hitting id value i0, the
search returns the record fetched at resolution 200 and the probe log is
exactly the id values 0..i0 at resolution 200 — resolutions are probed in
reverse of the configured order, id values from 0 upward, the search stops
at the first resolution with a hit, and no candidate at resolution 100 is
fetched, whatever exists there. -/
theorem C4_resolution_preference (fetch : Nat → Nat → Option Row) (maxId i0 : Nat)
    (r0 : Row) (h1 : i0 < maxId) (h2 : fetch 200 i0 = some r0)
    (h3 : ∀ j, j < i0 → fetch 200 j = none) :
    tier3 fetch [100, 200] maxId
      = ((List.range (i0 + 1)).map (fun j => (200, j)), some (200, i0, r0)) := by
  have hdec : List.range maxId
      = List.range i0 ++ i0 :: (List.range (maxId - i0 - 1)).map (fun j => (i0 + 1) + j) := by
    have h4 : maxId = (i0 + 1) + (maxId - i0 - 1) := by omega
    calc List.range maxId
        = List.range ((i0 + 1) + (maxId - i0 - 1)) := by rw [← h4]
      _ = List.range (i0 + 1)
            ++ (List.range (maxId - i0 - 1)).map (fun j => (i0 + 1) + j) := by
          rw [List.range_add]
      _ = (List.range i0 ++ [i0])
            ++ (List.range (maxId - i0 - 1)).map (fun j => (i0 + 1) + j) := by
          rw [List.range_succ]
      _ = List.range i0 ++ i0 :: (List.range (maxId - i0 - 1)).map (fun j => (i0 + 1) + j) := by
          simp
  have hprobe : probeIds (fetch 200) (List.range maxId)
      = (List.range i0 ++ [i0], some (i0, r0)) := by
    rw [hdec]
    exact probeIds_first _ _ _ _ _ (fun j hj => h3 j (List.mem_range.1 hj)) h2
  have hlog : List.range i0 ++ [i0] = List.range (i0 + 1) := (List.range_succ i0).symm
  show tier3Aux fetch maxId [200, 100] = _
  rw [tier3Aux, hprobe, hlog]

theorem C4_resolution_preference_witness :
    tier3 (fun res i => if res = 200 ∧ i = 0 then some (lc "R200") else some (lc "R100"))
      [100, 200] 6
      = ([(200, 0)], some (200, 0, lc "R200")) :=
  C4_resolution_preference
    (fun res i => if res = 200 ∧ i = 0 then some (lc "R200") else some (lc "R100"))
    6 0 (lc "R200") (by decide) (by decide) (fun j hj => absurd hj (Nat.not_lt_zero j))

/-- C5 (amended): both cache lookups scan the two family tag patterns in
the fixed order quasicircular-then-eccentric and return an empty value,
never an exception, when nothing matches; `simname_from_cache` returns the
match for the first tag with matches, but `metadata_filename_from_cache`,
whose loop has no early exit, returns the match for the last tag with any
match — so when files for both families exist it returns the eccentric
match, not the first tag's (see the counterexample). -/
theorem C5_cache_lookup_order (glob : List Char → List (List Char)) (dir : List Char)
    (idx : Nat) :
    (glob (patEcc dir idx) = [] → glob (patQC dir idx) = [] →
      metadata_filename_from_cache glob dir idx = [] ∧
      simname_from_cache glob dir idx = []) ∧
    (∀ f2 t2, glob (patEcc dir idx) = f2 :: t2 →
      metadata_filename_from_cache glob dir idx = f2) ∧
    (∀ f1 t1, glob (patQC dir idx) = f1 :: t1 →
      simname_from_cache glob dir idx = simname_from_metadata_filename (basename f1)) ∧
    (∀ f1 t1, glob (patQC dir idx) = f1 :: t1 → glob (patEcc dir idx) = [] →
      metadata_filename_from_cache glob dir idx = f1) ∧
    (∀ f2 t2, glob (patEcc dir idx) = f2 :: t2 → glob (patQC dir idx) = [] →
      simname_from_cache glob dir idx = simname_from_metadata_filename (basename f2)) := by
  rw [patQC, patEcc]
  refine ⟨?_, ?_, ?_, ?_, ?_⟩
  · intro he hq
    rw [metadata_filename_from_cache, simname_from_cache, simtags]
    simp [List.foldl_cons, List.foldl_nil, simname_from_cacheAux, hq, he]
  · intro f2 t2 he
    rw [metadata_filename_from_cache, simtags]
    simp only [List.foldl_cons, List.foldl_nil, he]
  · intro f1 t1 hq
    rw [simname_from_cache, simtags]
    simp only [simname_from_cacheAux, hq]
  · intro f1 t1 hq he
    rw [metadata_filename_from_cache, simtags]
    simp only [List.foldl_cons, List.foldl_nil, hq, he]
  · intro f2 t2 he hq
    rw [simname_from_cache, simtags]
    simp only [simname_from_cacheAux, hq, he]

/-- C5 counterexample: when files matching both family tags exist for index
1, `metadata_filename_from_cache` returns the eccentric (second-tag) match,
which differs from the quasicircular (first-tag) match, refuting the claim
that the file returned is the match for the first tag in the scan
order. -/
theorem C5_counterexample :
    metadata_filename_from_cache
      (fun p => if p = patQC (lc "D") 1 then [lc "D/RIT:BBH:0001-n100-id1_Metadata.txt"]
        else if p = patEcc (lc "D") 1 then [lc "D/RIT:eBBH:0001-n100-ecc_Metadata.txt"]
        else [])
      (lc "D") 1
      = lc "D/RIT:eBBH:0001-n100-ecc_Metadata.txt" ∧
    lc "D/RIT:eBBH:0001-n100-ecc_Metadata.txt" ≠ lc "D/RIT:BBH:0001-n100-id1_Metadata.txt" := by
  decide

/-- C6 (amended): invoking the crawl again when the persisted snapshot
already holds at least num_sims_to_crawl - 1 records short-circuits
immediately, returning the first num_sims_to_crawl - 1 cached rows with an
empty probe log (no network activity); the returned table is capped at
num_sims_to_crawl - 1 rows.  A snapshot that merely reaches the acceptable
completeness fraction does not short-circuit (see the counterexample). -/
theorem C6_resume_shortcircuit (diskMeta : Nat → Option Row)
    (fetch : Nat → Nat → Nat → Option Row) (possible_res : List Nat)
    (maxId num : Nat) (table : List Row)
    (hn : 1 ≤ num) (h : table.length ≥ num - 1) :
    download_metadata_for_catalog diskMeta fetch possible_res maxId num (some table)
      = .ok (table.take (num - 1), []) ∧
    (table.take (num - 1)).length ≤ num - 1 := by
  constructor
  · simp [download_metadata_for_catalog, h]
  · simp [List.length_take]

/-- C6 counterexample: a snapshot of 7 records with num_sims_to_crawl 10
meets the acceptable completeness fraction 0.7 (7 is not below 0.7 * 10),
yet the crawl does not short-circuit: it runs the loop and issues ten
remote probes, refuting the claimed fraction-based short-circuit with no
network activity. -/
theorem C6_counterexample :
    natLtF 7 (fmulNat ⟨7, 10⟩ 10) = false ∧
    download_metadata_for_catalog (fun _ => none) (fun _ _ _ => none) [100] 1 10
      (some [lc "A1", lc "A2", lc "A3", lc "A4", lc "A5", lc "A6", lc "A7"])
      = .ok ([lc "A1", lc "A2", lc "A3", lc "A4", lc "A5", lc "A6", lc "A7"],
             [(1, 100, 0), (2, 100, 0), (3, 100, 0), (4, 100, 0), (5, 100, 0),
              (6, 100, 0), (7, 100, 0), (8, 100, 0), (9, 100, 0), (10, 100, 0)]) ∧
    ([(1, 100, 0), (2, 100, 0), (3, 100, 0), (4, 100, 0), (5, 100, 0),
      (6, 100, 0), (7, 100, 0), (8, 100, 0), (9, 100, 0), (10, 100, 0)]
        : List (Nat × Nat × Nat)) ≠ [] := by decide

theorem C6_resume_shortcircuit_witness :
    download_metadata_for_catalog (fun _ => none) (fun _ _ _ => none) [100] 1 3
      (some [lc "A1", lc "A2", lc "A3", lc "A4", lc "A5"])
      = .ok ([lc "A1", lc "A2"], []) ∧
    ([lc "A1", lc "A2"] : List Row).length ≤ 2 :=
  C6_resume_shortcircuit (fun _ => none) (fun _ _ _ => none) [100] 1 3
    [lc "A1", lc "A2", lc "A3", lc "A4", lc "A5"] (by decide) (by decide)

/-- C8: orbit/cycle cross-derivation.  Supplying number-of-cycles-22 = 10
alone yields number-of-orbits == 5.0; supplying number-of-orbits = 5 alone
yields number-of-cycles-22 == 10.0; each rule also fires when the target
field is present but equal to zero.  (The cycles-to-orbits block precedes
the orbits-to-cycles block in `parse_metadata_txt`, mirroring the source
order.) -/
theorem C8_orbit_cycle_derivation :
    ((parse_metadata_txt [lc "number-of-cycles-22 = 10"]).toOption.map
      (fun o => getNumEq o.2 (lc "number-of-orbits") (fnat 5)) = some true) ∧
    ((parse_metadata_txt [lc "number-of-orbits = 5"]).toOption.map
      (fun o => getNumEq o.2 (lc "number-of-cycles-22") (fnat 10)) = some true) ∧
    ((parse_metadata_txt [lc "number-of-cycles-22 = 10", lc "number-of-orbits = 0"]).toOption.map
      (fun o => getNumEq o.2 (lc "number-of-orbits") (fnat 5)) = some true) ∧
    ((parse_metadata_txt [lc "number-of-orbits = 5", lc "number-of-cycles-22 = 0"]).toOption.map
      (fun o => getNumEq o.2 (lc "number-of-cycles-22") (fnat 10)) = some true) := by
  decide

/-- C9: spin-component defaulting.  With relaxed-chi1z = 0.2 and
system-type aligned (matched case-insensitively, likewise nonspinning) and
no x/y spin lines, the parsed record has the corresponding x and y
components equal to 0.0; the identical rule applies independently for
relaxed-chi2z and for initial-bh-chi1z/chi2z. -/
theorem C9_spin_defaulting :
    ((parse_metadata_txt [lc "relaxed-chi1z = 0.2", lc "system-type = aligned"]).toOption.bind
      (fun o => rget? o.2 (lc "relaxed-chi1x")) = some (.num fzero)) ∧
    ((parse_metadata_txt [lc "relaxed-chi1z = 0.2", lc "system-type = aligned"]).toOption.bind
      (fun o => rget? o.2 (lc "relaxed-chi1y")) = some (.num fzero)) ∧
    ((parse_metadata_txt [lc "relaxed-chi1z = 0.2", lc "system-type = ALIGNED"]).toOption.bind
      (fun o => rget? o.2 (lc "relaxed-chi1x")) = some (.num fzero)) ∧
    ((parse_metadata_txt [lc "relaxed-chi2z = 0.4", lc "system-type = Nonspinning"]).toOption.bind
      (fun o => rget? o.2 (lc "relaxed-chi2y")) = some (.num fzero)) ∧
    ((parse_metadata_txt [lc "initial-bh-chi1z = 0.2", lc "system-type = aligned"]).toOption.bind
      (fun o => rget? o.2 (lc "initial-bh-chi1x")) = some (.num fzero)) ∧
    ((parse_metadata_txt [lc "initial-bh-chi2z = 0.3", lc "system-type = nonspinning"]).toOption.bind
      (fun o => rget? o.2 (lc "initial-bh-chi2y")) = some (.num fzero)) := by
  decide

/-- C10: divergent absence behavior of the three path accessors.  For a
simulation whose computed local files do not exist,
`metadata_filepath_from_simname` raises RuntimeError,
`psi4_filepath_from_simname` returns the empty string, and
`waveform_filepath_from_simname` returns the computed (nonexistent) path
without raising. -/
theorem C10_path_accessors (pe : List Char → Bool) (m : SimLocations)
    (h1 : pe m.metadata_location = false) (h2 : pe m.psi4_data_location = false) :
    metadata_filepath_from_simname pe m = .error .runtimeError ∧
    psi4_filepath_from_simname pe m = [] ∧
    waveform_filepath_from_simname pe m = m.waveform_data_location := by
  refine ⟨?_, ?_, rfl⟩
  · simp [metadata_filepath_from_simname, h1]
  · simp [psi4_filepath_from_simname, h2]

theorem C10_path_accessors_witness :
    metadata_filepath_from_simname (fun _ => false)
      ⟨lc "meta.txt", lc "wave.h5", lc "psi4.asc"⟩ = .error .runtimeError ∧
    psi4_filepath_from_simname (fun _ => false)
      ⟨lc "meta.txt", lc "wave.h5", lc "psi4.asc"⟩ = [] ∧
    waveform_filepath_from_simname (fun _ => false)
      ⟨lc "meta.txt", lc "wave.h5", lc "psi4.asc"⟩ = lc "wave.h5" :=
  C10_path_accessors (fun _ => false) ⟨lc "meta.txt", lc "wave.h5", lc "psi4.asc"⟩ rfl rfl

/-- Witness for C5: a cache with only an eccentric match for index 1. -/
theorem C5_cache_lookup_order_witness :
    metadata_filename_from_cache
      (fun p => if p = patEcc (lc "D") 1 then [lc "D/RIT:eBBH:0001-n100-ecc_Metadata.txt"]
        else [])
      (lc "D") 1
      = lc "D/RIT:eBBH:0001-n100-ecc_Metadata.txt" :=
  (C5_cache_lookup_order
    (fun p => if p = patEcc (lc "D") 1 then [lc "D/RIT:eBBH:0001-n100-ecc_Metadata.txt"]
      else [])
    (lc "D") 1).2.1
    (lc "D/RIT:eBBH:0001-n100-ecc_Metadata.txt") [] (by decide)
